import Mathlib

/-!
# Verification of the whoop-sdk request-execution pipeline

Shallow embedding of the SDK's request-execution pipeline components:
the error taxonomy (`src/errors`), the retry helper (`withRetry`), the
OAuth token manager (`WhoopOAuthClient`), the HTTP client's 401 handling
(`WhoopHttpClient.handleResponse`), the cache (`WhoopCache`) and the
request deduplicator (`RequestDeduplicator`).

Conventions of the embedding:
* JavaScript numbers that hold timestamps, durations, sizes and counters
  are modelled as `Nat` (or `Int` where the source value can go negative).
* Thrown exceptions are modelled with `Except`.
* `Map` objects are modelled as association lists in insertion order
  (`Map.set` replaces in place or appends, as in JS).
* Asynchronous interleavings are modelled as explicit event traces: each
  event is one synchronous block of the source (JS code between two
  `await` suspension points runs atomically on the event loop).
-/

/-! ## Association-list helpers (JS `Map` semantics, insertion order kept) -/

/-- `Map.get`: first binding of the key, if any. -/
def alookup {κ α : Type} [DecidableEq κ] : List (κ × α) → κ → Option α
  | [], _ => none
  | (k, v) :: rest, key => if key = k then some v else alookup rest key

/-- `Map.set`: replace the first binding in place, else append (JS insertion order). -/
def aset {κ α : Type} [DecidableEq κ] : List (κ × α) → κ → α → List (κ × α)
  | [], key, v => [(key, v)]
  | (k, w) :: rest, key, v =>
      if key = k then (k, v) :: rest else (k, w) :: aset rest key v

/-- `Map.delete`: remove the first binding of the key. -/
def aerase {κ α : Type} [DecidableEq κ] : List (κ × α) → κ → List (κ × α)
  | [], _ => []
  | (k, w) :: rest, key => if key = k then rest else (k, w) :: aerase rest key

/-! ## Error taxonomy (src/errors/base.ts, src/errors/api.ts)

One constructor per concrete error class of the SDK.  The payload keeps
the data the pipeline inspects (status, message, retry-after hint). -/

inductive WhoopError : Type
  /-- `WhoopValidationError` (HTTP 400). -/
  | validationError (message : String)
  /-- `WhoopAuthError` (HTTP 401). -/
  | authError (message : String)
  /-- `WhoopNotFoundError` (HTTP 404). -/
  | notFoundError (message : String)
  /-- `WhoopRateLimitError` (HTTP 429) with optional `retryAfter` seconds. -/
  | rateLimitError (message : String) (retryAfter : Option Nat)
  /-- Generic `WhoopAPIError` built by `WhoopAPIError.fromResponse`. -/
  | apiError (status : Nat) (message : String)
  /-- `WhoopNetworkError`. -/
  | networkError (message : String)
  /-- `WhoopTimeoutError`. -/
  | timeoutError (message : String)
  /-- A non-SDK `Error` (anything else that can be thrown). -/
  | genericError (message : String)
deriving DecidableEq, Repr

/-- The `status` property of the `WhoopAPIError` hierarchy
(subclasses fix it: validation 400, auth 401, notFound 404, rateLimit 429). -/
def WhoopError.status : WhoopError → Option Nat
  | .validationError _ => some 400
  | .authError _ => some 401
  | .notFoundError _ => some 404
  | .rateLimitError _ _ => some 429
  | .apiError s _ => some s
  | _ => none

/-- `isWhoopAPIError`: `instanceof WhoopAPIError` (the five API classes). -/
def isWhoopAPIError : WhoopError → Bool
  | .validationError _ | .authError _ | .notFoundError _
  | .rateLimitError _ _ | .apiError _ _ => true
  | _ => false

/-- `isAuthError`: `instanceof WhoopAuthError`. -/
def isAuthError : WhoopError → Bool
  | .authError _ => true
  | _ => false

/-- `WhoopAPIError.isServerError`: `status >= 500`. -/
def WhoopError.isServerError : WhoopError → Bool
  | e => match e.status with
    | some s => 500 ≤ s
    | none => false

/-- Response body fields the error factory reads
(`body?.message`, `body?.retry_after`). -/
structure ErrorBody where
  message : Option String := none
  retry_after : Option Nat := none
deriving DecidableEq, Repr

/-- `ErrorFactory.fromHttpStatus` (src/errors/factory.ts): maps an HTTP
status and response body to the concrete error class. -/
def ErrorFactory.fromHttpStatus (status : Nat) (body : ErrorBody) : WhoopError :=
  match status with
  | 400 => .validationError (body.message.getD "Bad Request")
  | 401 => .authError (body.message.getD "Unauthorized")
  | 404 => .notFoundError (body.message.getD "Not Found")
  | 429 => .rateLimitError (body.message.getD "Rate limit exceeded") body.retry_after
  | s => .apiError s (body.message.getD ("HTTP " ++ toString s ++ " Error"))

/-- Retry classification record returned by `getRetryInfo`. -/
structure RetryInfo where
  canRetry : Bool
  delayMs : Option Nat := none
deriving DecidableEq, Repr

/-- `getRetryInfo` (src/errors/factory.ts): rate-limit errors are retryable
with the server hint (default 60000 ms); other API errors retry only on
5xx; network/timeout errors always retry; everything else never. -/
def getRetryInfo (e : WhoopError) : RetryInfo :=
  match e with
  | .rateLimitError _ retryAfter =>
      { canRetry := true,
        delayMs := some (match retryAfter with | some r => r * 1000 | none => 60000) }
  | .networkError _ => { canRetry := true, delayMs := some 1000 }
  | .timeoutError _ => { canRetry := true, delayMs := some 1000 }
  | .genericError _ => { canRetry := false }
  | e => { canRetry := e.isServerError, delayMs := some 1000 }

/-! ## Retry helper (`withRetry`, src/utils/retry.ts)

The source loops `attempt = 1 .. maxAttempts`, invoking `fn` each
iteration; on rejection it keeps `lastError`, breaks when the attempt was
the last or the error is not retryable, otherwise sleeps a jittered
exponential-backoff delay and retries.  The embedding models `fn` as a
function from the attempt number to that attempt's outcome and returns
the final outcome together with the number of invocations; sleeping and
the jittered delay are time-only effects with no influence on which
attempts run or on the returned value, so they are not represented.
`maxAttempts = 0` makes the source throw its uninitialised `lastError`
(`undefined`), modelled as `.error none`. -/

/-- Body of the retry loop.  `attempt` is the 1-indexed attempt number,
`remaining` is `maxAttempts - attempt` (iterations left after this one).
Returns the outcome and the total number of `fn` invocations. -/
def withRetryFrom {α : Type} (fn : Nat → Except WhoopError α) :
    Nat → Nat → Except (Option WhoopError) α × Nat
  | attempt, remaining =>
    match fn attempt, remaining with
    | .ok a, _ => (.ok a, attempt)
    | .error e, 0 => (.error (some e), attempt)
    | .error e, r + 1 =>
        if (getRetryInfo e).canRetry then withRetryFrom fn (attempt + 1) r
        else (.error (some e), attempt)

/-- `withRetry(fn, { maxAttempts })`: outcome plus invocation count. -/
def withRetry {α : Type} (fn : Nat → Except WhoopError α) (maxAttempts : Nat) :
    Except (Option WhoopError) α × Nat :=
  match maxAttempts with
  | 0 => (.error none, 0)
  | m + 1 => withRetryFrom fn 1 m

/-! ## OAuth token manager (`WhoopOAuthClient`, src/auth/oauth.ts) -/

/-- `OAuthTokens` (src/types/oauth.ts).  All fields are required in the
source type; `expires_in` is in seconds. -/
structure OAuthTokens where
  access_token : String
  refresh_token : String
  expires_in : Nat
  token_type : String
  scope : String
deriving DecidableEq, Repr

/-- `WhoopOAuthClient.isTokenExpired` (src/auth/oauth.ts lines 264-281),
evaluated at time `now` (= `Date.now()`).  The source computes
`expirationTime = Date.now() + expires_in*1000 - bufferMs` at CHECK time
(it stores no issuance time) and returns `Date.now() >= expirationTime`;
`!currentTokens.expires_in` treats `expires_in = 0` as "no expiry info".
Arithmetic is over `Int` because `expires_in*1000 - bufferMs` can be
negative. -/
def WhoopOAuthClient.isTokenExpired (now : Nat) (tokens : Option OAuthTokens) : Bool :=
  match tokens with
  | none => true
  | some t =>
    if t.expires_in = 0 then false
    else
      let bufferMs : Int := 5 * 60 * 1000
      let expirationTime : Int := (now : Int) + (t.expires_in : Int) * 1000 - bufferMs
      decide ((now : Int) ≥ expirationTime)

/-- Modelled from the spec: the expiry rule the specification states for
the token manager — a token stored at `issuedAt` is expired at `now` iff
`now >= issuedAt + expires_in*1000 - bufferMs` with a 5-minute buffer.
(The source stores no `issuedAt`; this definition exists only to compare
the claim's rule with the code's actual check.) -/
def specTokenExpired (issuedAt expiresInSeconds now : Nat) : Bool :=
  decide ((now : Int) ≥ (issuedAt : Int) + (expiresInSeconds : Int) * 1000 - 5 * 60 * 1000)

/-- JS `a || b` on an optional string: an empty string is falsy. -/
def jsOrString (a b : Option String) : Option String :=
  match a with
  | some s => if s = "" then b else some s
  | none => b

/-- State of one `WhoopOAuthClient` between event-loop blocks:
the stored tokens, the in-flight refresh promise (`refreshPromise`,
identified by a number), a counter of `performTokenRefresh` invocations
(each is one refresh HTTP call), and a fresh-id source. -/
structure OAuthClientState where
  tokens : Option OAuthTokens
  refreshPromise : Option Nat
  refreshHttpCalls : Nat
  nextPromiseId : Nat
deriving DecidableEq, Repr

/-- What one synchronous entry into `refreshAccessToken` does for its
caller (src/auth/oauth.ts lines 129-150). -/
inductive RefreshCallResult : Type
  /-- `throw new WhoopAuthError('No refresh token available')`. -/
  | noRefreshToken
  /-- A refresh was already in flight: the caller gets the SAME pending
  promise (`return this.refreshPromise`). -/
  | joined (promiseId : Nat)
  /-- No refresh in flight: `performTokenRefresh` is invoked and the new
  promise is stored in the in-flight slot. -/
  | started (promiseId : Nat)
deriving DecidableEq, Repr

/-- Synchronous prefix of `WhoopOAuthClient.refreshAccessToken` (up to its
first suspension): picks the refresh token (`refreshToken ||
this.tokens?.refresh_token`), throws if none, returns the in-flight
promise if present, else starts `performTokenRefresh` (one HTTP call) and
records it in `refreshPromise`. -/
def WhoopOAuthClient.refreshCall (s : OAuthClientState) (refreshToken : Option String) :
    RefreshCallResult × OAuthClientState :=
  let tokenToRefresh := jsOrString refreshToken (s.tokens.map (·.refresh_token))
  match tokenToRefresh with
  | none => (.noRefreshToken, s)
  | some t =>
    if t = "" then (.noRefreshToken, s)
    else
      match s.refreshPromise with
      | some id => (.joined id, s)
      | none =>
          (.started s.nextPromiseId,
           { s with refreshPromise := some s.nextPromiseId,
                    refreshHttpCalls := s.refreshHttpCalls + 1,
                    nextPromiseId := s.nextPromiseId + 1 })

/-- Settlement of the in-flight refresh promise: the starting caller's
continuation `try { tokens := await p; this.tokens = tokens } finally
{ this.refreshPromise = undefined }`.  On success the stored token set is
replaced; the in-flight slot is cleared on success AND failure.  Every
caller that joined the same promise observes this same `outcome`. -/
def WhoopOAuthClient.refreshSettle (s : OAuthClientState)
    (outcome : Except WhoopError OAuthTokens) : OAuthClientState :=
  match outcome with
  | .ok newTokens => { s with tokens := some newTokens, refreshPromise := none }
  | .error _ => { s with refreshPromise := none }

/-- What one synchronous entry into `getValidAccessToken` does
(src/auth/oauth.ts lines 286-297). -/
inductive AccessTokenCallResult : Type
  /-- `throw new WhoopAuthError('No tokens available...')`. -/
  | noTokens
  /-- Token not expired: the current access token is returned unchanged. -/
  | returned (accessToken : String)
  /-- Token expired: `refreshAccessToken()` was entered, with this result. -/
  | refreshing (r : RefreshCallResult)
deriving DecidableEq, Repr

/-- Synchronous prefix of `WhoopOAuthClient.getValidAccessToken`: throws
with no tokens; refreshes when `isTokenExpired(this.tokens)`; otherwise
returns the held access token unchanged. -/
def WhoopOAuthClient.getValidAccessToken (s : OAuthClientState) (now : Nat) :
    AccessTokenCallResult × OAuthClientState :=
  match s.tokens with
  | none => (.noTokens, s)
  | some t =>
    if WhoopOAuthClient.isTokenExpired now (some t) then
      let r := WhoopOAuthClient.refreshCall s none
      (.refreshing r.1, r.2)
    else
      (.returned t.access_token, s)

/-! ## HTTP client 401 handling (`WhoopHttpClient.handleResponse`,
src/utils/http-client.ts)

`handleResponse` parses the body; on a non-ok response it builds the
error with `ErrorFactory.fromHttpStatus`; if that error is a
`WhoopAuthError` with status 401 and an OAuth client is configured, it
awaits ONE `refreshAccessToken()`; on refresh success it optionally
awaits the caller-supplied `onTokenRefresh` callback; if that whole try
block throws, tokens are cleared; in every non-ok case the ORIGINAL
error is thrown.  The refresh outcome and the callback are inputs of the
model (they stand for the awaited promises' results); note that a
successful `refreshAccessToken` has already stored the new token set
(see `WhoopOAuthClient.refreshSettle`). -/

/-- Observable result of one `handleResponse` call. -/
structure HandleResponseResult (β : Type) where
  /-- Returned body, or the thrown error. -/
  result : Except WhoopError β
  /-- Number of `refreshAccessToken()` calls made by this invocation. -/
  refreshAttempts : Nat
  /-- Stored token set after the call. -/
  tokensAfter : Option OAuthTokens

/-- `WhoopHttpClient.handleResponse` on a response with `ok`-flag
`respOk`, HTTP status `status`, parsed error body `body` and success
body `respVal`. -/
def WhoopHttpClient.handleResponse {β : Type} (oauthConfigured : Bool)
    (tokensBefore : Option OAuthTokens)
    (refreshOutcome : Except WhoopError OAuthTokens)
    (onTokenRefresh : Option (OAuthTokens → Except WhoopError Unit))
    (respOk : Bool) (status : Nat) (body : ErrorBody) (respVal : β) :
    HandleResponseResult β :=
  if respOk then
    { result := .ok respVal, refreshAttempts := 0, tokensAfter := tokensBefore }
  else
    let error := ErrorFactory.fromHttpStatus status body
    if isAuthError error ∧ oauthConfigured ∧ error.status = some 401 then
      match refreshOutcome with
      | .ok newTokens =>
          match onTokenRefresh with
          | some cb =>
              match cb newTokens with
              | .ok _ =>
                  { result := .error error, refreshAttempts := 1,
                    tokensAfter := some newTokens }
              | .error _ =>
                  -- the callback's rejection is caught as `refreshError`:
                  -- tokens are cleared and the original error is thrown
                  { result := .error error, refreshAttempts := 1,
                    tokensAfter := none }
          | none =>
              { result := .error error, refreshAttempts := 1,
                tokensAfter := some newTokens }
      | .error _ =>
          { result := .error error, refreshAttempts := 1, tokensAfter := none }
    else
      { result := .error error, refreshAttempts := 0, tokensAfter := tokensBefore }

/-! ## Cache (`WhoopCache`, src/utils/cache.ts)

The embedding fixes `config.compress = false` (the source default), so
the compression branch of `set` — guarded by `this.config.compress` — is
dead and `get` never decompresses.  The value type `V` is abstract;
`estimateSize` (source: `new Blob([JSON.stringify(obj)]).size`, which
THROWS inside `set` for non-serializable values such as circular
structures — the source has no try/catch around it) is a parameter
`est : V → Except Unit Nat` of the operations that use it, `.error ()`
standing for the thrown serialization error.  `totalSize` is an `Int`
because the source value could in principle go negative. -/

/-- `CacheConfig` (ttl and maxSize; `compress` is fixed to `false`,
`keyStrategy` is not used by the operations). -/
structure CacheConfig where
  ttl : Nat := 5 * 60 * 1000
  maxSize : Nat := 1000
deriving DecidableEq, Repr

/-- `CacheEntry` (src/utils/cache.ts lines 8-16). -/
structure CacheEntry (V : Type) where
  data : V
  timestamp : Nat
  ttl : Nat
  accessCount : Nat
  lastAccessed : Nat
  compressed : Bool
  size : Nat
deriving DecidableEq, Repr

/-- The mutable fields of a `WhoopCache` instance. -/
structure WhoopCache (V : Type) where
  cache : List (String × CacheEntry V)
  accessOrder : List (String × Nat)
  accessCounter : Nat
  totalSize : Int
  hits : Nat
  misses : Nat
  evictions : Nat
  compressionSavings : Nat
  config : CacheConfig
deriving DecidableEq, Repr

/-- A freshly constructed `WhoopCache` with the given configuration. -/
def WhoopCache.empty {V : Type} (cfg : CacheConfig) : WhoopCache V :=
  { cache := [], accessOrder := [], accessCounter := 0, totalSize := 0,
    hits := 0, misses := 0, evictions := 0, compressionSavings := 0, config := cfg }

/-- `WhoopCache.get` at time `now` (src/utils/cache.ts lines 54-84).
Miss on absent key; lazy expiry when `now - timestamp > ttl` (strict,
exactly as in the source; `Nat` truncated subtraction agrees with the JS
signed subtraction here because a negative difference is never `> ttl`),
removing the entry and its tracked memory; on a hit, bumps
`accessCount`, `lastAccessed` and the LRU access counter. -/
def WhoopCache.get {V : Type} (c : WhoopCache V) (now : Nat) (key : String) :
    Option V × WhoopCache V :=
  match alookup c.cache key with
  | none => (none, { c with misses := c.misses + 1 })
  | some entry =>
    if entry.ttl < now - entry.timestamp then
      (none,
       { c with cache := aerase c.cache key,
                accessOrder := aerase c.accessOrder key,
                totalSize := c.totalSize - entry.size,
                misses := c.misses + 1 })
    else
      (some entry.data,
       { c with cache := aset c.cache key
                  { entry with accessCount := entry.accessCount + 1, lastAccessed := now },
                accessOrder := aset c.accessOrder key (c.accessCounter + 1),
                accessCounter := c.accessCounter + 1,
                hits := c.hits + 1 })

/-- `WhoopCache.delete` (src/utils/cache.ts lines 138-146): subtracts the
entry's tracked size if present, erases the key from both maps, returns
whether the key was present. -/
def WhoopCache.delete {V : Type} (c : WhoopCache V) (key : String) :
    Bool × WhoopCache V :=
  let found := alookup c.cache key
  (found.isSome,
   { c with totalSize := match found with
              | some e => c.totalSize - e.size
              | none => c.totalSize,
            accessOrder := aerase c.accessOrder key,
            cache := aerase c.cache key })

/-- `WhoopCache.clear` (src/utils/cache.ts lines 151-156): drops all
entries and resets memory and the access counter (hit/miss/eviction
statistics are kept). -/
def WhoopCache.clear {V : Type} (c : WhoopCache V) : WhoopCache V :=
  { c with cache := [], accessOrder := [], totalSize := 0, accessCounter := 0 }

/-- The scan of `evictLRU` over `accessOrder`: the entry with the
smallest access counter (`oldestAccess` starts at `Infinity`, so the
first element always beats the initial value; a strict `<` keeps the
earliest element on ties). -/
def findOldest : List (String × Nat) → Option (String × Nat)
  | [] => none
  | p :: rest => some (rest.foldl (fun acc q => if q.2 < acc.2 then q else acc) p)

/-- `WhoopCache.evictLRU` (src/utils/cache.ts lines 176-191): deletes the
least-recently-used key (smallest access counter) and counts an
eviction. -/
def WhoopCache.evictLRU {V : Type} (c : WhoopCache V) : WhoopCache V :=
  match findOldest c.accessOrder with
  | some (oldestKey, _) =>
      let r := WhoopCache.delete c oldestKey
      { r.2 with evictions := r.2.evictions + 1 }
  | none => c

/-- The `while (cache.size >= maxSize && cache.size > 0) evictLRU()` loop
of `set`, with explicit fuel.  `set` passes `accessOrder.length + 1`
fuel, which is enough for every state whose `accessOrder` and `cache`
hold the same keys (each iteration then removes one of each); fuel
exhaustion corresponds to the source's non-termination on states outside
that invariant, which the operations never produce. -/
def WhoopCache.evictLoop {V : Type} : WhoopCache V → Nat → WhoopCache V
  | c, 0 => c
  | c, fuel + 1 =>
      if c.config.maxSize ≤ c.cache.length ∧ 0 < c.cache.length then
        WhoopCache.evictLoop c.evictLRU fuel
      else c

/-- `WhoopCache.set` at time `now` (src/utils/cache.ts lines 89-126) with
size estimator `est`.  The size estimate comes first and its failure
propagates out of `set` (the source calls `this.estimateSize(data)` with
no try/catch); then LRU eviction runs while the store is full; then the
new entry is stored — via `Map.set`, so an existing binding of `key` is
replaced in place while `totalSize` only gains the new entry's size. -/
def WhoopCache.set {V : Type} (c : WhoopCache V) (est : V → Except Unit Nat)
    (now : Nat) (key : String) (data : V) (customTtl : Option Nat) :
    Except Unit (WhoopCache V) :=
  match est data with
  | .error _ => .error ()
  | .ok size =>
    let ttl := customTtl.getD c.config.ttl
    let c1 := WhoopCache.evictLoop c (c.accessOrder.length + 1)
    .ok { c1 with
            cache := aset c1.cache key
              { data := data, timestamp := now, ttl := ttl, accessCount := 1,
                lastAccessed := now, compressed := false, size := size },
            accessOrder := aset c1.accessOrder key (c1.accessCounter + 1),
            accessCounter := c1.accessCounter + 1,
            totalSize := c1.totalSize + size }

/-- The record returned by `WhoopCache.getStats`
(src/utils/cache.ts lines 161-171).  `hitRate` and `averageEntrySize`
are `Math.round`ed; for the non-negative values that occur, rounding
half up over integers matches `Math.round`. -/
structure CacheStats where
  hits : Nat
  misses : Nat
  evictions : Nat
  compressionSavings : Nat
  hitRate : Nat
  size : Nat
  totalMemory : Int
  averageEntrySize : Int
deriving DecidableEq, Repr

/-- `WhoopCache.getStats`: `hitRate = round(hits/(hits+misses) * 100)`
with `|| 0` for the 0/0 case, entry count, tracked `totalMemory` and the
rounded average entry size. -/
def WhoopCache.getStats {V : Type} (c : WhoopCache V) : CacheStats :=
  let denom := c.hits + c.misses
  { hits := c.hits, misses := c.misses, evictions := c.evictions,
    compressionSavings := c.compressionSavings,
    hitRate := if denom = 0 then 0 else (200 * c.hits + denom) / (2 * denom),
    size := c.cache.length,
    totalMemory := c.totalSize,
    averageEntrySize :=
      if 0 < c.cache.length then
        (2 * c.totalSize + (c.cache.length : Int)) / (2 * (c.cache.length : Int))
      else 0 }

/-- One public cache operation with its `Date.now()` value. -/
inductive CacheOp (V : Type)
  | setOp (now : Nat) (key : String) (v : V) (customTtl : Option Nat)
  | getOp (now : Nat) (key : String)
  | delOp (key : String)
  | clearOp

/-- Apply one operation to the cache state.  A `set` whose size estimate
fails throws before any mutation, so it leaves the state unchanged. -/
def WhoopCache.applyOp {V : Type} (est : V → Except Unit Nat)
    (c : WhoopCache V) : CacheOp V → WhoopCache V
  | .setOp now key v customTtl =>
      match WhoopCache.set c est now key v customTtl with
      | .ok c2 => c2
      | .error _ => c
  | .getOp now key => (WhoopCache.get c now key).2
  | .delOp key => (WhoopCache.delete c key).2
  | .clearOp => WhoopCache.clear c

/-- Run a sequence of cache operations. -/
def WhoopCache.runOps {V : Type} (est : V → Except Unit Nat)
    (c : WhoopCache V) (ops : List (CacheOp V)) : WhoopCache V :=
  ops.foldl (WhoopCache.applyOp est) c

/-- Sum of the recorded `size` fields of the entries currently present. -/
def WhoopCache.memSum {V : Type} (c : WhoopCache V) : Int :=
  (c.cache.map (fun p => (p.2.size : Int))).sum

/-- Every `setOp` in the sequence targets a key that is absent from the
cache map at the moment it runs (no overwrite of a live or stale
binding). -/
def WhoopCache.freshSets {V : Type} (est : V → Except Unit Nat) :
    WhoopCache V → List (CacheOp V) → Bool
  | _, [] => true
  | c, op :: rest =>
      (match op with
       | .setOp _ key _ _ => (alookup c.cache key).isNone
       | _ => true) &&
      WhoopCache.freshSets est (WhoopCache.applyOp est c op) rest

/-- `RequestDedupe` configuration (defaults: enabled, 100 ms window,
10 concurrent). -/
structure RequestDedupe where
  enabled : Bool := true
  windowMs : Nat := 100
  maxConcurrent : Nat := 10
deriving DecidableEq, Repr

/-- What a caller's promise settles to. -/
inductive DedupOutcome (α ε : Type)
  | ok (v : α)
  | err (e : ε)
  /-- `new Error('Request was cancelled')`. -/
  | cancelledErr
deriving DecidableEq, Repr

/-- One underlying execution of a `requestFn` (the promise created by
`executeWithMetrics`, or by a direct `requestFn()` call when
deduplication is bypassed). -/
structure ExecRec where
  key : String
  leader : Nat
  waiters : List Nat
  aborted : Bool
  /-- Bypass path (`!enabled || skipDedup`): no pending entry, no
  concurrency accounting, no cancel transformation. -/
  direct : Bool
  settled : Bool
deriving DecidableEq, Repr

/-- A `PendingRequest` map entry: which execution owns the key, and the
`timestamp` recorded at registration. -/
structure PendingInfo where
  execId : Nat
  timestamp : Nat
deriving DecidableEq, Repr

/-- The deduplicator's state between event-loop blocks. -/
structure DedupState (α ε : Type) where
  pending : List (String × PendingInfo)
  execs : List (Nat × ExecRec)
  /-- Callers suspended in the `waitForSlot` poll loop, with their key. -/
  waiting : List (Nat × String)
  /-- Each caller's settled outcome, once its promise settles. -/
  results : List (Nat × DedupOutcome α ε)
  /-- `stats.concurrentRequests`. -/
  concurrent : Nat
  /-- `stats.dedupedRequests`. -/
  dedupedRequests : Nat
  /-- Number of `requestFn` invocations. -/
  fnCount : Nat
  nextExecId : Nat
deriving DecidableEq, Repr

/-- The initial deduplicator state. -/
def DedupState.init (α ε : Type) : DedupState α ε :=
  { pending := [], execs := [], waiting := [], results := [],
    concurrent := 0, dedupedRequests := 0, fnCount := 0, nextExecId := 0 }

/-- `isWithinWindow` (src/utils/deduplication.ts lines 194-196):
`Date.now() - timestamp < windowMs` (`Nat` subtraction agrees with the
JS signed one: a caller can only observe a timestamp not in its
future). -/
def RequestDeduplicator.isWithinWindow (cfg : RequestDedupe)
    (timestamp now : Nat) : Bool :=
  now - timestamp < cfg.windowMs

/-- The pending-map section of `execute` (lines 73-97): attach to a live
in-window entry, else register a new pending entry, invoke `requestFn`
and bump the concurrency counter. -/
def RequestDeduplicator.dedupCheck {α ε : Type} (cfg : RequestDedupe)
    (s : DedupState α ε) (caller : Nat) (key : String) (now : Nat) :
    DedupState α ε :=
  match alookup s.pending key with
  | some info =>
    if RequestDeduplicator.isWithinWindow cfg info.timestamp now then
      match alookup s.execs info.execId with
      | some ex =>
          { s with dedupedRequests := s.dedupedRequests + 1,
                   execs := aset s.execs info.execId
                     { ex with waiters := ex.waiters ++ [caller] } }
      | none => s
    else
      register cfg s caller key now
  | none => register cfg s caller key now
where
  /-- Register a new pending entry for `key` and start its execution. -/
  register (_cfg : RequestDedupe) (s : DedupState α ε) (caller : Nat)
      (key : String) (now : Nat) : DedupState α ε :=
    { s with
        execs := s.execs ++ [(s.nextExecId,
          { key := key, leader := caller, waiters := [], aborted := false,
            direct := false, settled := false })],
        pending := aset s.pending key { execId := s.nextExecId, timestamp := now },
        concurrent := s.concurrent + 1,
        fnCount := s.fnCount + 1,
        nextExecId := s.nextExecId + 1 }

/-- A caller entering `execute(key, requestFn, { skipDedup })`
(lines 55-97 up to the first suspension).  Bypass when disabled or
skipping (a direct execution, not registered); suspend into the
`waitForSlot` poll when at the concurrency ceiling; otherwise run the
pending-map section. -/
def RequestDeduplicator.callExecute {α ε : Type} (cfg : RequestDedupe)
    (s : DedupState α ε) (caller : Nat) (key : String) (now : Nat)
    (skipDedup : Bool) : DedupState α ε :=
  if ¬cfg.enabled ∨ skipDedup then
    { s with
        execs := s.execs ++ [(s.nextExecId,
          { key := key, leader := caller, waiters := [], aborted := false,
            direct := true, settled := false })],
        fnCount := s.fnCount + 1,
        nextExecId := s.nextExecId + 1 }
  else if cfg.maxConcurrent ≤ s.concurrent then
    { s with waiting := s.waiting ++ [(caller, key)] }
  else
    RequestDeduplicator.dedupCheck cfg s caller key now

/-- A suspended caller resuming from the `waitForSlot` poll and running
the pending-map section (the source does not re-check the ceiling after
the poll resolves). -/
def RequestDeduplicator.resumeExecute {α ε : Type} (cfg : RequestDedupe)
    (s : DedupState α ε) (caller : Nat) (key : String) (now : Nat) :
    DedupState α ε :=
  if (caller, key) ∈ s.waiting then
    RequestDeduplicator.dedupCheck cfg
      { s with waiting := s.waiting.erase (caller, key) } caller key now
  else s

/-- The underlying promise of execution `execId` settling with the
`requestFn` outcome.  `executeWithMetrics` turns a rejection into the
cancelled error when the abort signal fired (a fulfilled value is
returned untouched); the leader then resolves/rejects every waiter with
that single outcome and the `finally` block deletes the key from the
pending map unconditionally and decrements the concurrency counter
(a direct execution did neither registration nor accounting). -/
def RequestDeduplicator.settleExec {α ε : Type}
    (s : DedupState α ε) (execId : Nat) (outcome : Except ε α) :
    DedupState α ε :=
  match alookup s.execs execId with
  | none => s
  | some ex =>
    if ex.settled then s
    else
      let observed : DedupOutcome α ε :=
        match outcome with
        | .ok v => .ok v
        | .error e => if ex.aborted ∧ ¬ex.direct then .cancelledErr else .err e
      let s1 :=
        { s with
            execs := aset s.execs execId { ex with settled := true },
            results := s.results ++
              (ex.leader, observed) :: ex.waiters.map (fun w => (w, observed)) }
      if ex.direct then s1
      else
        { s1 with pending := aerase s1.pending ex.key,
                  concurrent := s1.concurrent - 1 }

/-- `RequestDeduplicator.cancel` (lines 150-158): if a pending entry
exists for the key, abort its controller (every entry registered by
`execute` carries one) and remove the entry immediately, returning
`true`; else return `false`. -/
def RequestDeduplicator.cancel {α ε : Type} (s : DedupState α ε)
    (key : String) : Bool × DedupState α ε :=
  match alookup s.pending key with
  | some info =>
      (true,
       { s with
           execs := match alookup s.execs info.execId with
             | some ex => aset s.execs info.execId { ex with aborted := true }
             | none => s.execs,
           pending := aerase s.pending key })
  | none => (false, s)

/-- One scheduler event. -/
inductive DedupEvent (α ε : Type)
  | call (caller : Nat) (key : String) (now : Nat) (skipDedup : Bool)
  | resume (caller : Nat) (key : String) (now : Nat)
  | settle (execId : Nat) (outcome : Except ε α)
  | cancelEv (key : String)

/-- Apply one event. -/
def RequestDeduplicator.stepEvent {α ε : Type} (cfg : RequestDedupe)
    (s : DedupState α ε) : DedupEvent α ε → DedupState α ε
  | .call caller key now skipDedup =>
      RequestDeduplicator.callExecute cfg s caller key now skipDedup
  | .resume caller key now => RequestDeduplicator.resumeExecute cfg s caller key now
  | .settle execId outcome => RequestDeduplicator.settleExec s execId outcome
  | .cancelEv key => (RequestDeduplicator.cancel s key).2

/-- Run a trace of events from the initial state. -/
def RequestDeduplicator.run {α ε : Type} (cfg : RequestDedupe)
    (events : List (DedupEvent α ε)) : DedupState α ε :=
  events.foldl (RequestDeduplicator.stepEvent cfg) (DedupState.init α ε)

/-- A concrete deduplicator state used to instantiate general theorems:
one pending entry for key `"k"` owned by execution 0 (aborted,
unsettled, not direct) whose leader is caller 1 and whose only waiter is
caller 2. -/
def sampleDedupState : DedupState Nat Unit :=
  { pending := [("k", { execId := 0, timestamp := 0 })],
    execs := [(0, { key := "k", leader := 1, waiters := [2], aborted := true,
                    direct := false, settled := false })],
    waiting := [], results := [], concurrent := 1, dedupedRequests := 1,
    fnCount := 1, nextExecId := 1 }

/-! ## Helper lemmas on the association-list operations -/

theorem aset_fresh_append {κ α : Type} [DecidableEq κ] {l : List (κ × α)}
    {k : κ} (v : α) (h : alookup l k = none) :
    aset l k v = l ++ [(k, v)] := by
  induction l with
  | nil => rfl
  | cons p rest ih =>
    by_cases hk : k = p.1
    · simp [alookup, hk] at h
    · simp only [alookup, hk, if_neg] at h
      simp [aset, hk, ih h]

theorem alookup_aerase_ne {κ α : Type} [DecidableEq κ] (l : List (κ × α))
    {k k' : κ} (h : k' ≠ k) :
    alookup (aerase l k) k' = alookup l k' := by
  induction l with
  | nil => rfl
  | cons p rest ih =>
    by_cases hk : k = p.1
    · subst hk
      simp [aerase, alookup, h]
    · by_cases hk' : k' = p.1
      · simp [aerase, alookup, hk, hk']
      · simp [aerase, alookup, hk, hk', ih]

theorem aerase_of_none {κ α : Type} [DecidableEq κ] {l : List (κ × α)}
    {k : κ} (h : alookup l k = none) : aerase l k = l := by
  induction l with
  | nil => rfl
  | cons p rest ih =>
    by_cases hk : k = p.1
    · simp [alookup, hk] at h
    · simp only [alookup, hk, if_neg] at h
      simp [aerase, hk, ih h]

theorem alookup_mem {κ α : Type} [DecidableEq κ] {l : List (κ × α)}
    {k : κ} {v : α} (h : alookup l k = some v) : (k, v) ∈ l := by
  induction l with
  | nil => simp [alookup] at h
  | cons p rest ih =>
    by_cases hk : k = p.1
    · subst hk
      simp only [alookup, if_pos rfl] at h
      exact Option.some.inj h ▸ List.mem_cons_self _ _
    · simp only [alookup, hk, if_neg] at h
      exact List.mem_cons_of_mem _ (ih h)

theorem alookup_eq_of_mem_nodup {κ α : Type} [DecidableEq κ] {l : List (κ × α)}
    {q : κ × α} (hnd : (l.map Prod.fst).Nodup) (h : q ∈ l) :
    alookup l q.1 = some q.2 := by
  induction l with
  | nil => cases h
  | cons p rest ih =>
    simp only [List.map_cons, List.nodup_cons] at hnd
    rcases List.mem_cons.mp h with h | h
    · subst h
      simp [alookup]
    · have hne : q.1 ≠ p.1 := by
        intro he
        exact hnd.1 (he ▸ List.mem_map_of_mem Prod.fst h)
      simpa [alookup, hne] using ih hnd.2 h

theorem alookup_aerase_self_nodup {κ α : Type} [DecidableEq κ]
    {l : List (κ × α)} {k : κ} (hnd : (l.map Prod.fst).Nodup) :
    alookup (aerase l k) k = none := by
  induction l with
  | nil => rfl
  | cons p rest ih =>
    simp only [List.map_cons, List.nodup_cons] at hnd
    by_cases hk : k = p.1
    · subst hk
      simp only [aerase, if_pos rfl]
      cases hlk : alookup rest p.1 with
      | none => exact hlk
      | some v => exact absurd (List.mem_map_of_mem Prod.fst (alookup_mem hlk)) hnd.1
    · simpa [aerase, alookup, hk] using ih hnd.2

/-! ## Lemmas about `findOldest` and `counterList` -/

theorem findOldest_cons_isSome (q : String × Nat) (t : List (String × Nat)) :
    (findOldest (q :: t)).isSome := by
  simp [findOldest]

/-- All failing attempts with retryable errors: the loop runs all
remaining iterations and ends with the last attempt's error. -/
theorem withRetryFrom_allFail {α : Type} (fn : Nat → Except WhoopError α)
    (errs : Nat → WhoopError)
    (hfail : ∀ i, fn i = .error (errs i))
    (hretry : ∀ i, (getRetryInfo (errs i)).canRetry = true) :
    ∀ remaining attempt, withRetryFrom fn attempt remaining =
      (.error (some (errs (attempt + remaining))), attempt + remaining) := by
  intro remaining
  induction remaining with
  | zero =>
    intro attempt
    simp [withRetryFrom, hfail attempt]
  | succ r ih =>
    intro attempt
    have hstep : withRetryFrom fn attempt (r + 1) = withRetryFrom fn (attempt + 1) r := by
      simp [withRetryFrom, hfail attempt, hretry attempt]
    rw [hstep, ih (attempt + 1)]
    have harith : attempt + 1 + r = attempt + (r + 1) := by omega
    rw [harith]

/-- C1 (code bug exhibit): `isTokenExpired` ignores how long ago the token
set was stored.  A token with `expires_in = 3600` s stored at time 0 is
expired at `now = 100000000` ms under the claimed rule
`now >= issuedAt + expires_in*1000 - 300000`, yet the code reports it as
not expired (its check-time formula degenerates to
`expires_in*1000 <= 300000`), and `getValidAccessToken` therefore
returns the stale access token unchanged without any refresh. -/
theorem claim_C1 :
    specTokenExpired 0 3600 100000000 = true ∧
    WhoopOAuthClient.isTokenExpired 100000000
      (some { access_token := "a", refresh_token := "r", expires_in := 3600,
              token_type := "Bearer", scope := "read:profile" }) = false ∧
    (WhoopOAuthClient.getValidAccessToken
      { tokens := some { access_token := "a", refresh_token := "r", expires_in := 3600,
                         token_type := "Bearer", scope := "read:profile" },
        refreshPromise := none, refreshHttpCalls := 0, nextPromiseId := 0 }
      100000000).1 = .returned "a" ∧
    (WhoopOAuthClient.getValidAccessToken
      { tokens := some { access_token := "a", refresh_token := "r", expires_in := 3600,
                         token_type := "Bearer", scope := "read:profile" },
        refreshPromise := none, refreshHttpCalls := 0, nextPromiseId := 0 }
      100000000).2.refreshHttpCalls = 0 := by
  refine ⟨by decide, by decide, ?_, ?_⟩ <;> decide

/-! ## Claim C4 — retry exhaustion -/

/-- C4: with `maxAttempts = n >= 1` and an operation that rejects with a
retryable error on every attempt, `withRetry` invokes the operation
exactly `n` times and finally rejects with exactly the `n`-th attempt's
error, unwrapped. -/
theorem claim_C4 {α : Type} (fn : Nat → Except WhoopError α)
    (errs : Nat → WhoopError) (n : Nat) (hn : 1 ≤ n)
    (hfail : ∀ i, fn i = .error (errs i))
    (hretry : ∀ i, (getRetryInfo (errs i)).canRetry = true) :
    withRetry fn n = (.error (some (errs n)), n) := by
  obtain ⟨m, rfl⟩ : ∃ m, n = m + 1 := ⟨n - 1, by omega⟩
  show withRetryFrom fn 1 m = _
  rw [withRetryFrom_allFail fn errs hfail hretry m 1]
  have harith : 1 + m = m + 1 := by omega
  rw [harith]

/-- Witness for C4 at `n = 3` with a network error on every attempt. -/
theorem claim_C4_witness :
    withRetry (fun _ => (.error (.networkError "boom") : Except WhoopError Nat)) 3 =
      (.error (some (.networkError "boom")), 3) :=
  claim_C4 (fun _ => .error (.networkError "boom")) (fun _ => .networkError "boom") 3
    (by decide) (fun _ => rfl) (fun _ => rfl)

/-! ## Claim C5 — cache TTL boundary -/

/-- C5 counterexample: with `ttl = 1000` and an entry stored at time 0,
`get` at time exactly `createdAt + ttl = 1000` still returns the stored
value (the source expires only on `now - timestamp > ttl`, strictly),
where the claim says it must already be absent at `now >= createdAt +
ttl`. -/
theorem claim_C5_counterexample :
    (WhoopCache.set (WhoopCache.empty { ttl := 1000, maxSize := 3 } : WhoopCache Nat)
        (fun _ => .ok 4) 0 "k" 7 none).map
      (fun c1 => (WhoopCache.get c1 1000 "k").1) = .ok (some 7) := rfl

/-- C5 (amended): for an entry stored at `tset` with ttl
`customTtl ?? cfg.ttl`, `get` returns the stored value at every `now`
with `now - tset <= ttl` (including the instant `tset + ttl` itself) and
returns absent — removing the entry — at every `now` with
`now - tset > ttl` (strictly after expiry). -/
theorem claim_C5 (V : Type) (cfg : CacheConfig) (est : V → Except Unit Nat)
    (key : String) (v : V) (s : Nat) (customTtl : Option Nat) (tset now : Nat)
    (hest : est v = .ok s) :
    (now - tset ≤ customTtl.getD cfg.ttl →
      (WhoopCache.get (WhoopCache.applyOp est (WhoopCache.empty cfg)
        (.setOp tset key v customTtl)) now key).1 = some v) ∧
    (customTtl.getD cfg.ttl < now - tset →
      (WhoopCache.get (WhoopCache.applyOp est (WhoopCache.empty cfg)
        (.setOp tset key v customTtl)) now key).1 = none ∧
      alookup ((WhoopCache.get (WhoopCache.applyOp est (WhoopCache.empty cfg)
        (.setOp tset key v customTtl)) now key).2).cache key = none) := by
  have hset : WhoopCache.applyOp est (WhoopCache.empty cfg)
      (.setOp tset key v customTtl) =
      { cache := [(key, { data := v, timestamp := tset, ttl := customTtl.getD cfg.ttl,
                          accessCount := 1, lastAccessed := tset, compressed := false,
                          size := s })],
        accessOrder := [(key, 1)], accessCounter := 1, totalSize := (s : Int),
        hits := 0, misses := 0, evictions := 0, compressionSavings := 0,
        config := cfg } := by
    simp [WhoopCache.applyOp, WhoopCache.set, hest, WhoopCache.empty,
          WhoopCache.evictLoop, aset]
  rw [hset]
  constructor
  · intro hle
    have hcond : ¬ (customTtl.getD cfg.ttl < now - tset) := not_lt.mpr hle
    simp [WhoopCache.get, alookup, hcond]
  · intro hlt
    simp [WhoopCache.get, alookup, aerase, hlt]

/-- Witness for C5 at a concrete instance (`ttl = 1000`, stored at 0,
read at 500 and at 1500). -/
theorem claim_C5_witness :
    ((500 : Nat) - 0 ≤ (Option.none).getD (1000 : Nat) →
      (WhoopCache.get (WhoopCache.applyOp (fun _ => .ok 4)
        (WhoopCache.empty { ttl := 1000, maxSize := 3 } : WhoopCache Nat)
        (.setOp 0 "k" 7 none)) 500 "k").1 = some 7) ∧
    ((Option.none).getD (1000 : Nat) < (500 : Nat) - 0 →
      (WhoopCache.get (WhoopCache.applyOp (fun _ => .ok 4)
        (WhoopCache.empty { ttl := 1000, maxSize := 3 } : WhoopCache Nat)
        (.setOp 0 "k" 7 none)) 500 "k").1 = none ∧
      alookup ((WhoopCache.get (WhoopCache.applyOp (fun _ => .ok 4)
        (WhoopCache.empty { ttl := 1000, maxSize := 3 } : WhoopCache Nat)
        (.setOp 0 "k" 7 none)) 500 "k").2).cache "k" = none) :=
  claim_C5 Nat { ttl := 1000, maxSize := 3 } (fun _ => .ok 4) "k" 7 4 none 0 500 rfl

/-! ## Claim C7 — cache never throws -/

/-- C7 counterexample: when size estimation fails (`JSON.stringify`
throws on a circular value inside `estimateSize`, which `set` calls with
no try/catch), `set` itself throws — it does not degrade to size 0. -/
theorem claim_C7_counterexample :
    WhoopCache.set (WhoopCache.empty {} : WhoopCache Nat)
      (fun _ => .error ()) 0 "k" 7 none = .error () := rfl

/-- C7 (amended): `set` succeeds exactly when the byte-size estimation of
the value succeeds (an estimation failure propagates as a thrown
exception, with no size-0 fallback), while `get` never throws and only
ever reports absent or the present entry's stored value. -/
theorem claim_C7 (V : Type) (c : WhoopCache V) (est : V → Except Unit Nat)
    (now : Nat) (key : String) (v : V) (customTtl : Option Nat) :
    ((∃ s, est v = .ok s) ↔
      ∃ c2, WhoopCache.set c est now key v customTtl = .ok c2) ∧
    ((WhoopCache.get c now key).1 = none ∨
      ∃ e, alookup c.cache key = some e ∧
        (WhoopCache.get c now key).1 = some e.data) := by
  constructor
  · constructor
    · rintro ⟨s, hs⟩
      unfold WhoopCache.set
      rw [hs]
      exact ⟨_, rfl⟩
    · rintro ⟨c2, hc2⟩
      cases hs : est v with
      | ok s => exact ⟨s, rfl⟩
      | error e => simp [WhoopCache.set, hs] at hc2
  · cases hl : alookup c.cache key with
    | none =>
      left
      simp [WhoopCache.get, hl]
    | some entry =>
      by_cases hexp : entry.ttl < now - entry.timestamp
      · left
        simp [WhoopCache.get, hl, hexp]
      · right
        exact ⟨entry, rfl, by simp [WhoopCache.get, hl, hexp]⟩

/-! ## Claim C2 — 401 handling -/

/-- C2 counterexample: the refresh SUCCEEDS (`.ok` new tokens) but the
caller-supplied `onTokenRefresh` notification callback throws; the catch
block then clears the stored tokens anyway, so tokens are cleared
although the refresh itself did not fail. -/
theorem claim_C2_counterexample :
    (WhoopHttpClient.handleResponse true
        (some { access_token := "old", refresh_token := "r", expires_in := 3600,
                token_type := "Bearer", scope := "sc" })
        (.ok { access_token := "new", refresh_token := "r", expires_in := 3600,
               token_type := "Bearer", scope := "sc" })
        (some (fun _ => .error (.genericError "listener failed")))
        false 401 {} (0 : Nat)).tokensAfter = none ∧
    (WhoopHttpClient.handleResponse true
        (some { access_token := "old", refresh_token := "r", expires_in := 3600,
                token_type := "Bearer", scope := "sc" })
        (.ok { access_token := "new", refresh_token := "r", expires_in := 3600,
               token_type := "Bearer", scope := "sc" })
        (some (fun _ => .error (.genericError "listener failed")))
        false 401 {} (0 : Nat)).refreshAttempts = 1 := by
  constructor <;> rfl

/-- C2 (amended): on a 401 response with an OAuth client configured,
`handleResponse` attempts exactly one `refreshAccessToken` call, always
throws the ORIGINAL 401 error (never the refresh error), and clears the
stored tokens if and only if the refresh call or the `onTokenRefresh`
notification callback fails. -/
theorem claim_C2 (β : Type) (tokensBefore : Option OAuthTokens)
    (refreshOutcome : Except WhoopError OAuthTokens)
    (onTokenRefresh : Option (OAuthTokens → Except WhoopError Unit))
    (body : ErrorBody) (respVal : β) :
    (WhoopHttpClient.handleResponse true tokensBefore refreshOutcome
      onTokenRefresh false 401 body respVal).refreshAttempts = 1 ∧
    (WhoopHttpClient.handleResponse true tokensBefore refreshOutcome
      onTokenRefresh false 401 body respVal).result =
        .error (ErrorFactory.fromHttpStatus 401 body) ∧
    ((WhoopHttpClient.handleResponse true tokensBefore refreshOutcome
      onTokenRefresh false 401 body respVal).tokensAfter = none ↔
      (∃ e, refreshOutcome = .error e) ∨
      (∃ t cb, refreshOutcome = .ok t ∧ onTokenRefresh = some cb ∧
        ∃ e2, cb t = .error e2)) := by
  have herr : ErrorFactory.fromHttpStatus 401 body =
      .authError (body.message.getD "Unauthorized") := rfl
  cases refreshOutcome with
  | ok t =>
    cases onTokenRefresh with
    | none =>
      refine ⟨?_, ?_, ?_⟩ <;>
        simp [WhoopHttpClient.handleResponse, herr, isAuthError, WhoopError.status]
    | some cb =>
      cases hcb : cb t with
      | ok u =>
        refine ⟨?_, ?_, ?_⟩ <;>
          simp [WhoopHttpClient.handleResponse, herr, isAuthError,
                WhoopError.status, hcb]
      | error e2 =>
        refine ⟨?_, ?_, ?_⟩ <;>
          simp [WhoopHttpClient.handleResponse, herr, isAuthError,
                WhoopError.status, hcb]
  | error e =>
    refine ⟨?_, ?_, ?_⟩ <;>
      simp [WhoopHttpClient.handleResponse, herr, isAuthError, WhoopError.status]

/-! ## Claim C6 — refresh single-flight -/

/-- The code's expiry check does not depend on the current time: it
compares `now` with `now + expires_in*1000 - bufferMs`, so `now`
cancels. -/
theorem isTokenExpired_time_independent (t : OAuthTokens) (now1 now2 : Nat) :
    WhoopOAuthClient.isTokenExpired now1 (some t) =
      WhoopOAuthClient.isTokenExpired now2 (some t) := by
  unfold WhoopOAuthClient.isTokenExpired
  by_cases h : t.expires_in = 0
  · simp [h]
  · simp only [h, if_neg, not_false_iff]
    rw [decide_eq_decide]
    omega

/-- C6: with an expired token stored and no refresh in flight, a first
`getValidAccessToken` starts refresh promise 0 (one refresh HTTP call);
a second concurrent `getValidAccessToken` joins the SAME promise 0
without a second HTTP call; after the promise settles (success or
failure) the in-flight slot is cleared, and a subsequent
`refreshAccessToken` entry starts a NEW refresh (promise 1). -/
theorem claim_C6 (tok : OAuthTokens) (now1 now2 : Nat)
    (hexp : WhoopOAuthClient.isTokenExpired now1 (some tok) = true)
    (hrt : tok.refresh_token ≠ "") :
    (WhoopOAuthClient.getValidAccessToken
      { tokens := some tok, refreshPromise := none, refreshHttpCalls := 0,
        nextPromiseId := 0 } now1).1 = .refreshing (.started 0) ∧
    (WhoopOAuthClient.getValidAccessToken
      (WhoopOAuthClient.getValidAccessToken
        { tokens := some tok, refreshPromise := none, refreshHttpCalls := 0,
          nextPromiseId := 0 } now1).2 now2).1 = .refreshing (.joined 0) ∧
    (WhoopOAuthClient.getValidAccessToken
      (WhoopOAuthClient.getValidAccessToken
        { tokens := some tok, refreshPromise := none, refreshHttpCalls := 0,
          nextPromiseId := 0 } now1).2 now2).2.refreshHttpCalls = 1 ∧
    (∀ outcome,
      (WhoopOAuthClient.refreshSettle
        (WhoopOAuthClient.getValidAccessToken
          (WhoopOAuthClient.getValidAccessToken
            { tokens := some tok, refreshPromise := none, refreshHttpCalls := 0,
              nextPromiseId := 0 } now1).2 now2).2 outcome).refreshPromise = none) ∧
    (∀ newTok : OAuthTokens, newTok.refresh_token ≠ "" →
      (WhoopOAuthClient.refreshCall
        (WhoopOAuthClient.refreshSettle
          (WhoopOAuthClient.getValidAccessToken
            (WhoopOAuthClient.getValidAccessToken
              { tokens := some tok, refreshPromise := none, refreshHttpCalls := 0,
                nextPromiseId := 0 } now1).2 now2).2 (.ok newTok)) none).1 =
        .started 1) ∧
    (∀ e : WhoopError,
      (WhoopOAuthClient.refreshCall
        (WhoopOAuthClient.refreshSettle
          (WhoopOAuthClient.getValidAccessToken
            (WhoopOAuthClient.getValidAccessToken
              { tokens := some tok, refreshPromise := none, refreshHttpCalls := 0,
                nextPromiseId := 0 } now1).2 now2).2 (.error e)) none).1 =
        .started 1) := by
  have hexp2 : WhoopOAuthClient.isTokenExpired now2 (some tok) = true :=
    (isTokenExpired_time_independent tok now2 now1).trans hexp
  have hs1 : WhoopOAuthClient.getValidAccessToken
      { tokens := some tok, refreshPromise := none, refreshHttpCalls := 0,
        nextPromiseId := 0 } now1 =
      (.refreshing (.started 0),
       { tokens := some tok, refreshPromise := some 0, refreshHttpCalls := 1,
         nextPromiseId := 1 }) := by
    simp [WhoopOAuthClient.getValidAccessToken, WhoopOAuthClient.refreshCall,
          jsOrString, hexp, hrt]
  rw [hs1]
  have hs2 : WhoopOAuthClient.getValidAccessToken
      { tokens := some tok, refreshPromise := some 0, refreshHttpCalls := 1,
        nextPromiseId := 1 } now2 =
      (.refreshing (.joined 0),
       { tokens := some tok, refreshPromise := some 0, refreshHttpCalls := 1,
         nextPromiseId := 1 }) := by
    simp [WhoopOAuthClient.getValidAccessToken, WhoopOAuthClient.refreshCall,
          jsOrString, hexp2, hrt]
  rw [hs2]
  refine ⟨rfl, rfl, rfl, ?_, ?_, ?_⟩
  · intro outcome
    cases outcome <;> rfl
  · intro newTok hnrt
    simp [WhoopOAuthClient.refreshSettle, WhoopOAuthClient.refreshCall,
          jsOrString, hnrt]
  · intro e
    simp [WhoopOAuthClient.refreshSettle, WhoopOAuthClient.refreshCall,
          jsOrString, hrt]

/-- Witness for C6 with a concrete 60-second token at times 5 and 7. -/
theorem claim_C6_witness :
    (WhoopOAuthClient.getValidAccessToken
      { tokens := some { access_token := "a", refresh_token := "r", expires_in := 60,
                         token_type := "Bearer", scope := "sc" },
        refreshPromise := none, refreshHttpCalls := 0, nextPromiseId := 0 } 5).1 =
      .refreshing (.started 0) ∧
    (WhoopOAuthClient.getValidAccessToken
      (WhoopOAuthClient.getValidAccessToken
        { tokens := some { access_token := "a", refresh_token := "r", expires_in := 60,
                           token_type := "Bearer", scope := "sc" },
          refreshPromise := none, refreshHttpCalls := 0, nextPromiseId := 0 } 5).2 7).1 =
      .refreshing (.joined 0) ∧
    (WhoopOAuthClient.getValidAccessToken
      (WhoopOAuthClient.getValidAccessToken
        { tokens := some { access_token := "a", refresh_token := "r", expires_in := 60,
                           token_type := "Bearer", scope := "sc" },
          refreshPromise := none, refreshHttpCalls := 0, nextPromiseId := 0 } 5).2 7).2.refreshHttpCalls = 1 ∧
    (∀ outcome,
      (WhoopOAuthClient.refreshSettle
        (WhoopOAuthClient.getValidAccessToken
          (WhoopOAuthClient.getValidAccessToken
            { tokens := some { access_token := "a", refresh_token := "r", expires_in := 60,
                               token_type := "Bearer", scope := "sc" },
              refreshPromise := none, refreshHttpCalls := 0, nextPromiseId := 0 } 5).2 7).2
        outcome).refreshPromise = none) ∧
    (∀ newTok : OAuthTokens, newTok.refresh_token ≠ "" →
      (WhoopOAuthClient.refreshCall
        (WhoopOAuthClient.refreshSettle
          (WhoopOAuthClient.getValidAccessToken
            (WhoopOAuthClient.getValidAccessToken
              { tokens := some { access_token := "a", refresh_token := "r", expires_in := 60,
                                 token_type := "Bearer", scope := "sc" },
                refreshPromise := none, refreshHttpCalls := 0, nextPromiseId := 0 } 5).2 7).2
          (.ok newTok)) none).1 = .started 1) ∧
    (∀ e : WhoopError,
      (WhoopOAuthClient.refreshCall
        (WhoopOAuthClient.refreshSettle
          (WhoopOAuthClient.getValidAccessToken
            (WhoopOAuthClient.getValidAccessToken
              { tokens := some { access_token := "a", refresh_token := "r", expires_in := 60,
                                 token_type := "Bearer", scope := "sc" },
                refreshPromise := none, refreshHttpCalls := 0, nextPromiseId := 0 } 5).2 7).2
          (.error e)) none).1 = .started 1) :=
  claim_C6 { access_token := "a", refresh_token := "r", expires_in := 60,
             token_type := "Bearer", scope := "sc" } 5 7 (by decide) (by decide)

/-! ## Claim C9 — deduplicator cancel -/

/-- C9 counterexample: caller 2 attaches as a waiter to caller 1's
pending execution, `cancel("k")` aborts and removes the entry, but the
underlying `requestFn` keeps running (the abort signal never reaches it)
and fulfills with 42 — and the waiter is RESOLVED with that success
value, not rejected with a "cancelled" error. -/
theorem claim_C9_counterexample :
    (RequestDeduplicator.run { enabled := true, windowMs := 100, maxConcurrent := 10 }
      [DedupEvent.call 1 "k" 0 false, DedupEvent.call 2 "k" 10 false,
       DedupEvent.cancelEv "k", DedupEvent.settle 0 (Except.ok 42)]
      : DedupState Nat Unit).results = [(1, .ok 42), (2, .ok 42)] := by
  decide

/-- C9 (amended): `cancel(key)` returns `true` iff a pending entry
exists for the key at the time of the call, and removes the entry
immediately; but the waiters already attached to the cancelled entry
still observe the underlying execution's outcome when it settles: a
"cancelled" rejection when the `requestFn` rejects after the abort, and
the plain success value when it fulfills. -/
theorem claim_C9 (α ε : Type) (s : DedupState α ε) (key : String)
    (hnd : (s.pending.map Prod.fst).Nodup) :
    ((RequestDeduplicator.cancel s key).1 = true ↔
      (alookup s.pending key).isSome = true) ∧
    alookup ((RequestDeduplicator.cancel s key).2).pending key = none ∧
    (∀ execId ex, alookup s.execs execId = some ex → ex.settled = false →
      ex.aborted = true → ex.direct = false →
      (∀ (e : ε) (w : Nat), w ∈ ex.waiters →
        (w, (DedupOutcome.cancelledErr : DedupOutcome α ε)) ∈
          (RequestDeduplicator.settleExec s execId (.error e)).results) ∧
      (∀ (v : α) (w : Nat), w ∈ ex.waiters →
        (w, (DedupOutcome.ok v : DedupOutcome α ε)) ∈
          (RequestDeduplicator.settleExec s execId (.ok v)).results)) := by
  refine ⟨?_, ?_, ?_⟩
  · cases hp : alookup s.pending key with
    | none => simp [RequestDeduplicator.cancel, hp]
    | some info => simp [RequestDeduplicator.cancel, hp]
  · cases hp : alookup s.pending key with
    | none => simpa [RequestDeduplicator.cancel, hp] using hp
    | some info =>
      simpa [RequestDeduplicator.cancel, hp] using
        alookup_aerase_self_nodup (l := s.pending) (k := key) hnd
  · intro execId ex hex hsettled haborted hdirect
    constructor
    · intro e w hw
      simp only [RequestDeduplicator.settleExec, hex, hsettled, haborted, hdirect]
      simp only [Bool.false_eq_true, if_false, and_true, not_false_iff, if_true,
                 Bool.true_eq_false]
      refine List.mem_append.mpr (Or.inr ?_)
      refine List.mem_cons.mpr (Or.inr ?_)
      exact List.mem_map.mpr ⟨w, hw, rfl⟩
    · intro v w hw
      simp only [RequestDeduplicator.settleExec, hex, hsettled, hdirect]
      simp only [Bool.false_eq_true, if_false]
      refine List.mem_append.mpr (Or.inr ?_)
      refine List.mem_cons.mpr (Or.inr ?_)
      exact List.mem_map.mpr ⟨w, hw, rfl⟩

/-- Witness for C9 at `sampleDedupState`. -/
theorem claim_C9_witness :
    ((RequestDeduplicator.cancel sampleDedupState "k").1 = true ↔
      (alookup sampleDedupState.pending "k").isSome = true) ∧
    alookup ((RequestDeduplicator.cancel sampleDedupState "k").2).pending "k" = none ∧
    (∀ execId ex, alookup sampleDedupState.execs execId = some ex →
      ex.settled = false → ex.aborted = true → ex.direct = false →
      (∀ (e : Unit) (w : Nat), w ∈ ex.waiters →
        (w, (DedupOutcome.cancelledErr : DedupOutcome Nat Unit)) ∈
          (RequestDeduplicator.settleExec sampleDedupState execId (.error e)).results) ∧
      (∀ (v : Nat) (w : Nat), w ∈ ex.waiters →
        (w, (DedupOutcome.ok v : DedupOutcome Nat Unit)) ∈
          (RequestDeduplicator.settleExec sampleDedupState execId (.ok v)).results)) :=
  claim_C9 Nat Unit sampleDedupState "k" (by decide)

/-! ## Claim C3 — dedup collapsing -/

/-- Looking up any member of a list of bindings that all carry the same
value yields that value. -/
theorem alookup_const_of_mem {α : Type} (x : α) :
    ∀ (l : List Nat) (c : Nat), c ∈ l →
      alookup (l.map (fun w => (w, x))) c = some x := by
  intro l
  induction l with
  | nil => intro c hc; cases hc
  | cons w t ih =>
    intro c hc
    by_cases hcw : c = w
    · simp [alookup, hcw]
    · rcases List.mem_cons.mp hc with h | h
      · exact absurd h hcw
      · simpa [alookup, hcw] using ih c h

/-- While execution 0 for key `k` is pending (registered at `t0`) and the
deduplicator is below its concurrency ceiling, every further
`execute(k, ...)` call within the dedup window attaches as a waiter:
no new execution starts. -/
theorem dedup_attach_run (α ε : Type) (cfg : RequestDedupe) (k : String)
    (c0 t0 : Nat) (hen : cfg.enabled = true) (hmax : 2 ≤ cfg.maxConcurrent) :
    ∀ (others : List (Nat × Nat)) (ws : List Nat) (d : Nat),
      (∀ p ∈ others, t0 ≤ p.2 ∧ p.2 - t0 < cfg.windowMs) →
      List.foldl (RequestDeduplicator.stepEvent cfg)
        ({ pending := [(k, { execId := 0, timestamp := t0 })],
           execs := [(0, { key := k, leader := c0, waiters := ws, aborted := false,
                           direct := false, settled := false })],
           waiting := [], results := [], concurrent := 1, dedupedRequests := d,
           fnCount := 1, nextExecId := 1 } : DedupState α ε)
        (others.map (fun p => DedupEvent.call p.1 k p.2 false)) =
      { pending := [(k, { execId := 0, timestamp := t0 })],
        execs := [(0, { key := k, leader := c0, waiters := ws ++ others.map Prod.fst,
                        aborted := false, direct := false, settled := false })],
        waiting := [], results := [], concurrent := 1,
        dedupedRequests := d + others.length, fnCount := 1, nextExecId := 1 } := by
  intro others
  induction others with
  | nil =>
    intro ws d _
    simp
  | cons p t ih =>
    intro ws d hwin
    obtain ⟨hle, hlt⟩ := hwin p (List.mem_cons_self p t)
    have hnotceil : ¬ cfg.maxConcurrent ≤ 1 := by omega
    have hstep : RequestDeduplicator.stepEvent cfg
        ({ pending := [(k, { execId := 0, timestamp := t0 })],
           execs := [(0, { key := k, leader := c0, waiters := ws, aborted := false,
                           direct := false, settled := false })],
           waiting := [], results := [], concurrent := 1, dedupedRequests := d,
           fnCount := 1, nextExecId := 1 } : DedupState α ε)
        (DedupEvent.call p.1 k p.2 false) =
        { pending := [(k, { execId := 0, timestamp := t0 })],
          execs := [(0, { key := k, leader := c0, waiters := ws ++ [p.1],
                          aborted := false, direct := false, settled := false })],
          waiting := [], results := [], concurrent := 1, dedupedRequests := d + 1,
          fnCount := 1, nextExecId := 1 } := by
      simp [RequestDeduplicator.stepEvent, RequestDeduplicator.callExecute, hen,
            hnotceil, RequestDeduplicator.dedupCheck, alookup,
            RequestDeduplicator.isWithinWindow, hlt, aset]
    rw [List.map_cons, List.foldl_cons, hstep,
        ih (ws ++ [p.1]) (d + 1) (fun q hq => hwin q (List.mem_cons_of_mem p hq))]
    simp [Nat.add_comm, Nat.add_assoc, Nat.add_left_comm]

/-- C3 (amended): with deduplication enabled, no `skipDedup`, and the
deduplicator strictly below its concurrency ceiling (in this single-key
scenario: `maxConcurrent >= 2`), N concurrent `execute(k, fn)` calls
made while the first call's execution is pending and within `windowMs`
of its start invoke `fn` exactly once (only one execution ever exists),
and when that single execution settles, every caller's promise settles
identically: all resolve to the single fulfilled value, or all reject
with the single rejection error.  (Without the ceiling proviso the
property fails: a caller that arrives at the ceiling waits in the
`waitForSlot` poll and starts a second execution after the first
settles — see the counterexample.) -/
theorem claim_C3 (α ε : Type) (cfg : RequestDedupe) (k : String) (c0 t0 : Nat)
    (others : List (Nat × Nat)) (r : Except ε α)
    (hen : cfg.enabled = true) (hmax : 2 ≤ cfg.maxConcurrent)
    (hwin : ∀ p ∈ others, t0 ≤ p.2 ∧ p.2 - t0 < cfg.windowMs) :
    (RequestDeduplicator.run cfg
      (DedupEvent.call c0 k t0 false ::
        (others.map (fun p => DedupEvent.call p.1 k p.2 false) ++
         [DedupEvent.settle 0 r])) : DedupState α ε).fnCount = 1 ∧
    (RequestDeduplicator.run cfg
      (DedupEvent.call c0 k t0 false ::
        (others.map (fun p => DedupEvent.call p.1 k p.2 false) ++
         [DedupEvent.settle 0 r])) : DedupState α ε).execs.length = 1 ∧
    alookup (RequestDeduplicator.run cfg
      (DedupEvent.call c0 k t0 false ::
        (others.map (fun p => DedupEvent.call p.1 k p.2 false) ++
         [DedupEvent.settle 0 r])) : DedupState α ε).results c0 =
      some (match r with
            | Except.ok v => DedupOutcome.ok v
            | Except.error e => DedupOutcome.err e) ∧
    ∀ p ∈ others,
      alookup (RequestDeduplicator.run cfg
        (DedupEvent.call c0 k t0 false ::
          (others.map (fun p => DedupEvent.call p.1 k p.2 false) ++
           [DedupEvent.settle 0 r])) : DedupState α ε).results p.1 =
        some (match r with
              | Except.ok v => DedupOutcome.ok v
              | Except.error e => DedupOutcome.err e) := by
  cases r with
  | ok v =>
    have hnotceil : ¬ cfg.maxConcurrent ≤ 0 := by omega
    have hfirst : RequestDeduplicator.stepEvent cfg (DedupState.init α ε)
        (DedupEvent.call c0 k t0 false) =
        { pending := [(k, { execId := 0, timestamp := t0 })],
          execs := [(0, { key := k, leader := c0, waiters := [], aborted := false,
                          direct := false, settled := false })],
          waiting := [], results := [], concurrent := 1, dedupedRequests := 0,
          fnCount := 1, nextExecId := 1 } := by
      simp [RequestDeduplicator.stepEvent, RequestDeduplicator.callExecute, hen,
            hnotceil, RequestDeduplicator.dedupCheck,
            RequestDeduplicator.dedupCheck.register, DedupState.init, alookup, aset]
    have hmid := dedup_attach_run α ε cfg k c0 t0 hen hmax others [] 0 hwin
    have hsettle : RequestDeduplicator.stepEvent cfg
        ({ pending := [(k, { execId := 0, timestamp := t0 })],
           execs := [(0, { key := k, leader := c0, waiters := others.map Prod.fst,
                           aborted := false, direct := false, settled := false })],
           waiting := [], results := [], concurrent := 1,
           dedupedRequests := 0 + others.length, fnCount := 1,
           nextExecId := 1 } : DedupState α ε)
        (DedupEvent.settle 0 (Except.ok v)) =
        { pending := [],
          execs := [(0, { key := k, leader := c0, waiters := others.map Prod.fst,
                          aborted := false, direct := false, settled := true })],
          waiting := [],
          results := (c0, DedupOutcome.ok v) ::
            (others.map Prod.fst).map (fun w => (w, DedupOutcome.ok v)),
          concurrent := 0, dedupedRequests := 0 + others.length, fnCount := 1,
          nextExecId := 1 } := by
      simp [RequestDeduplicator.stepEvent, RequestDeduplicator.settleExec,
            alookup, aset, aerase]
    have hrun : (RequestDeduplicator.run cfg
        (DedupEvent.call c0 k t0 false ::
          (others.map (fun p => DedupEvent.call p.1 k p.2 false) ++
           [DedupEvent.settle 0 (Except.ok v)])) : DedupState α ε) =
        { pending := [],
          execs := [(0, { key := k, leader := c0, waiters := others.map Prod.fst,
                          aborted := false, direct := false, settled := true })],
          waiting := [],
          results := (c0, DedupOutcome.ok v) ::
            (others.map Prod.fst).map (fun w => (w, DedupOutcome.ok v)),
          concurrent := 0, dedupedRequests := 0 + others.length, fnCount := 1,
          nextExecId := 1 } := by
      rw [RequestDeduplicator.run, List.foldl_cons, hfirst, List.foldl_append, hmid]
      simpa using hsettle
    rw [hrun]
    have hform : ((c0, (DedupOutcome.ok v : DedupOutcome α ε)) ::
        (others.map Prod.fst).map (fun w => (w, DedupOutcome.ok v))) =
        ((c0 :: others.map Prod.fst).map (fun w => (w, (DedupOutcome.ok v : DedupOutcome α ε)))) := by
      simp
    refine ⟨rfl, rfl, ?_, ?_⟩
    · rw [hform]
      exact alookup_const_of_mem _ _ _ (List.mem_cons_self _ _)
    · intro p hp
      rw [hform]
      exact alookup_const_of_mem _ _ _
        (List.mem_cons_of_mem _ (List.mem_map_of_mem Prod.fst hp))
  | error e =>
    have hnotceil : ¬ cfg.maxConcurrent ≤ 0 := by omega
    have hfirst : RequestDeduplicator.stepEvent cfg (DedupState.init α ε)
        (DedupEvent.call c0 k t0 false) =
        { pending := [(k, { execId := 0, timestamp := t0 })],
          execs := [(0, { key := k, leader := c0, waiters := [], aborted := false,
                          direct := false, settled := false })],
          waiting := [], results := [], concurrent := 1, dedupedRequests := 0,
          fnCount := 1, nextExecId := 1 } := by
      simp [RequestDeduplicator.stepEvent, RequestDeduplicator.callExecute, hen,
            hnotceil, RequestDeduplicator.dedupCheck,
            RequestDeduplicator.dedupCheck.register, DedupState.init, alookup, aset]
    have hmid := dedup_attach_run α ε cfg k c0 t0 hen hmax others [] 0 hwin
    have hsettle : RequestDeduplicator.stepEvent cfg
        ({ pending := [(k, { execId := 0, timestamp := t0 })],
           execs := [(0, { key := k, leader := c0, waiters := others.map Prod.fst,
                           aborted := false, direct := false, settled := false })],
           waiting := [], results := [], concurrent := 1,
           dedupedRequests := 0 + others.length, fnCount := 1,
           nextExecId := 1 } : DedupState α ε)
        (DedupEvent.settle 0 (Except.error e)) =
        { pending := [],
          execs := [(0, { key := k, leader := c0, waiters := others.map Prod.fst,
                          aborted := false, direct := false, settled := true })],
          waiting := [],
          results := (c0, DedupOutcome.err e) ::
            (others.map Prod.fst).map (fun w => (w, DedupOutcome.err e)),
          concurrent := 0, dedupedRequests := 0 + others.length, fnCount := 1,
          nextExecId := 1 } := by
      simp [RequestDeduplicator.stepEvent, RequestDeduplicator.settleExec,
            alookup, aset, aerase]
    have hrun : (RequestDeduplicator.run cfg
        (DedupEvent.call c0 k t0 false ::
          (others.map (fun p => DedupEvent.call p.1 k p.2 false) ++
           [DedupEvent.settle 0 (Except.error e)])) : DedupState α ε) =
        { pending := [],
          execs := [(0, { key := k, leader := c0, waiters := others.map Prod.fst,
                          aborted := false, direct := false, settled := true })],
          waiting := [],
          results := (c0, DedupOutcome.err e) ::
            (others.map Prod.fst).map (fun w => (w, DedupOutcome.err e)),
          concurrent := 0, dedupedRequests := 0 + others.length, fnCount := 1,
          nextExecId := 1 } := by
      rw [RequestDeduplicator.run, List.foldl_cons, hfirst, List.foldl_append, hmid]
      simpa using hsettle
    rw [hrun]
    have hform : ((c0, (DedupOutcome.err e : DedupOutcome α ε)) ::
        (others.map Prod.fst).map (fun w => (w, DedupOutcome.err e))) =
        ((c0 :: others.map Prod.fst).map (fun w => (w, (DedupOutcome.err e : DedupOutcome α ε)))) := by
      simp
    refine ⟨rfl, rfl, ?_, ?_⟩
    · rw [hform]
      exact alookup_const_of_mem _ _ _ (List.mem_cons_self _ _)
    · intro p hp
      rw [hform]
      exact alookup_const_of_mem _ _ _
        (List.mem_cons_of_mem _ (List.mem_map_of_mem Prod.fst hp))

/-- C3 counterexample: with `maxConcurrent = 1`, caller 2's
`execute("k", fn)` is made at t = 50 — while caller 1's execution is
pending and within the 100 ms window — yet caller 2 blocks in
`waitForSlot`, and after the first execution settles it registers a
SECOND execution: `fn` runs twice and the two callers resolve to
different values (41 and 43). -/
theorem claim_C3_counterexample :
    (RequestDeduplicator.run { enabled := true, windowMs := 100, maxConcurrent := 1 }
      [DedupEvent.call 1 "k" 0 false, DedupEvent.call 2 "k" 50 false,
       DedupEvent.settle 0 (Except.ok 41), DedupEvent.resume 2 "k" 70,
       DedupEvent.settle 1 (Except.ok 43)] : DedupState Nat Unit).fnCount = 2 ∧
    alookup (RequestDeduplicator.run { enabled := true, windowMs := 100, maxConcurrent := 1 }
      [DedupEvent.call 1 "k" 0 false, DedupEvent.call 2 "k" 50 false,
       DedupEvent.settle 0 (Except.ok 41), DedupEvent.resume 2 "k" 70,
       DedupEvent.settle 1 (Except.ok 43)] : DedupState Nat Unit).results 1 =
      some (.ok 41) ∧
    alookup (RequestDeduplicator.run { enabled := true, windowMs := 100, maxConcurrent := 1 }
      [DedupEvent.call 1 "k" 0 false, DedupEvent.call 2 "k" 50 false,
       DedupEvent.settle 0 (Except.ok 41), DedupEvent.resume 2 "k" 70,
       DedupEvent.settle 1 (Except.ok 43)] : DedupState Nat Unit).results 2 =
      some (.ok 43) := by
  refine ⟨?_, ?_, ?_⟩ <;> decide

/-- Witness for C3: two extra callers (ids 2 and 3, at 30 ms and 50 ms)
joining caller 1's execution under the default configuration, once with
the execution fulfilling (value 42) and once with it rejecting
(error `()`). -/
theorem claim_C3_witness :
    ((RequestDeduplicator.run { enabled := true, windowMs := 100, maxConcurrent := 10 }
      (DedupEvent.call 1 "k" 0 false ::
        ([(2, 30), (3, 50)].map (fun p => DedupEvent.call p.1 "k" p.2 false) ++
         [DedupEvent.settle 0 (Except.ok 42)])) : DedupState Nat Unit).fnCount = 1 ∧
    (RequestDeduplicator.run { enabled := true, windowMs := 100, maxConcurrent := 10 }
      (DedupEvent.call 1 "k" 0 false ::
        ([(2, 30), (3, 50)].map (fun p => DedupEvent.call p.1 "k" p.2 false) ++
         [DedupEvent.settle 0 (Except.ok 42)])) : DedupState Nat Unit).execs.length = 1 ∧
    alookup (RequestDeduplicator.run { enabled := true, windowMs := 100, maxConcurrent := 10 }
      (DedupEvent.call 1 "k" 0 false ::
        ([(2, 30), (3, 50)].map (fun p => DedupEvent.call p.1 "k" p.2 false) ++
         [DedupEvent.settle 0 (Except.ok 42)])) : DedupState Nat Unit).results 1 =
      some (.ok 42) ∧
    ∀ p ∈ [((2 : Nat), (30 : Nat)), (3, 50)],
      alookup (RequestDeduplicator.run { enabled := true, windowMs := 100, maxConcurrent := 10 }
        (DedupEvent.call 1 "k" 0 false ::
          ([(2, 30), (3, 50)].map (fun p => DedupEvent.call p.1 "k" p.2 false) ++
           [DedupEvent.settle 0 (Except.ok 42)])) : DedupState Nat Unit).results p.1 =
        some (.ok 42)) ∧
    ((RequestDeduplicator.run { enabled := true, windowMs := 100, maxConcurrent := 10 }
      (DedupEvent.call 1 "k" 0 false ::
        ([(2, 30), (3, 50)].map (fun p => DedupEvent.call p.1 "k" p.2 false) ++
         [DedupEvent.settle 0 (Except.error ())])) : DedupState Nat Unit).fnCount = 1 ∧
    (RequestDeduplicator.run { enabled := true, windowMs := 100, maxConcurrent := 10 }
      (DedupEvent.call 1 "k" 0 false ::
        ([(2, 30), (3, 50)].map (fun p => DedupEvent.call p.1 "k" p.2 false) ++
         [DedupEvent.settle 0 (Except.error ())])) : DedupState Nat Unit).execs.length = 1 ∧
    alookup (RequestDeduplicator.run { enabled := true, windowMs := 100, maxConcurrent := 10 }
      (DedupEvent.call 1 "k" 0 false ::
        ([(2, 30), (3, 50)].map (fun p => DedupEvent.call p.1 "k" p.2 false) ++
         [DedupEvent.settle 0 (Except.error ())])) : DedupState Nat Unit).results 1 =
      some (.err ()) ∧
    ∀ p ∈ [((2 : Nat), (30 : Nat)), (3, 50)],
      alookup (RequestDeduplicator.run { enabled := true, windowMs := 100, maxConcurrent := 10 }
        (DedupEvent.call 1 "k" 0 false ::
          ([(2, 30), (3, 50)].map (fun p => DedupEvent.call p.1 "k" p.2 false) ++
           [DedupEvent.settle 0 (Except.error ())])) : DedupState Nat Unit).results p.1 =
        some (.err ())) :=
  ⟨claim_C3 Nat Unit { enabled := true, windowMs := 100, maxConcurrent := 10 }
    "k" 1 0 [(2, 30), (3, 50)] (Except.ok 42) rfl (by decide) (by decide),
   claim_C3 Nat Unit { enabled := true, windowMs := 100, maxConcurrent := 10 }
    "k" 1 0 [(2, 30), (3, 50)] (Except.error ()) rfl (by decide) (by decide)⟩

/-! ## Claim C10 — cache memory accounting -/

/-- Erasing a present binding removes exactly its recorded size from the
size sum. -/
theorem sizeSum_aerase {V : Type} {l : List (String × CacheEntry V)}
    {k : String} {e : CacheEntry V} (h : alookup l k = some e) :
    ((aerase l k).map (fun p => (p.2.size : Int))).sum =
      (l.map (fun p => (p.2.size : Int))).sum - (e.size : Int) := by
  induction l with
  | nil => simp [alookup] at h
  | cons p rest ih =>
    by_cases hk : k = p.1
    · subst hk
      simp [alookup] at h
      subst h
      simp [aerase]
    · simp only [alookup, hk, if_neg, not_false_iff] at h
      simp only [aerase, hk, if_neg, not_false_iff, List.map_cons, List.sum_cons,
                 ih h]
      ring

/-- Replacing a present binding adjusts the size sum by the difference of
the two entries' sizes. -/
theorem sizeSum_aset {V : Type} {l : List (String × CacheEntry V)}
    {k : String} {e : CacheEntry V} (e2 : CacheEntry V)
    (h : alookup l k = some e) :
    ((aset l k e2).map (fun p => (p.2.size : Int))).sum =
      (l.map (fun p => (p.2.size : Int))).sum - (e.size : Int) + (e2.size : Int) := by
  induction l with
  | nil => simp [alookup] at h
  | cons p rest ih =>
    by_cases hk : k = p.1
    · subst hk
      simp [alookup] at h
      subst h
      simp [aset]
      ring
    · simp only [alookup, hk, if_neg, not_false_iff] at h
      simp only [aset, hk, if_neg, not_false_iff, List.map_cons, List.sum_cons,
                 ih h]
      ring

/-- Erasing any key from a map that does not contain `key` keeps `key`
absent. -/
theorem alookup_aerase_of_none {κ α : Type} [DecidableEq κ]
    {l : List (κ × α)} {k k' : κ} (h : alookup l k = none) :
    alookup (aerase l k') k = none := by
  by_cases hk : k = k'
  · subst hk
    rw [aerase_of_none h]
    exact h
  · rw [alookup_aerase_ne l hk]
    exact h

/-- `get` preserves the memory-accounting invariant. -/
theorem memInv_get {V : Type} (c : WhoopCache V) (now : Nat) (key : String)
    (hinv : c.totalSize = WhoopCache.memSum c) :
    ((WhoopCache.get c now key).2).totalSize =
      WhoopCache.memSum ((WhoopCache.get c now key).2) := by
  cases hl : alookup c.cache key with
  | none => simpa [WhoopCache.get, hl, WhoopCache.memSum] using hinv
  | some entry =>
    by_cases hexp : entry.ttl < now - entry.timestamp
    · simp only [WhoopCache.get, hl, hexp, if_pos]
      simp [WhoopCache.memSum, sizeSum_aerase hl, hinv]
    · simp only [WhoopCache.get, hl, hexp, if_neg, not_false_iff]
      simp [WhoopCache.memSum,
            sizeSum_aset { entry with accessCount := entry.accessCount + 1,
                                      lastAccessed := now } hl, hinv]

/-- `delete` preserves the memory-accounting invariant. -/
theorem memInv_delete {V : Type} (c : WhoopCache V) (key : String)
    (hinv : c.totalSize = WhoopCache.memSum c) :
    ((WhoopCache.delete c key).2).totalSize =
      WhoopCache.memSum ((WhoopCache.delete c key).2) := by
  cases hl : alookup c.cache key with
  | none =>
    simp only [WhoopCache.delete, hl]
    simpa [WhoopCache.memSum, aerase_of_none hl] using hinv
  | some entry =>
    simp only [WhoopCache.delete, hl]
    simp [WhoopCache.memSum, sizeSum_aerase hl, hinv]

/-- `evictLRU` preserves the memory-accounting invariant. -/
theorem memInv_evictLRU {V : Type} (c : WhoopCache V)
    (hinv : c.totalSize = WhoopCache.memSum c) :
    (WhoopCache.evictLRU c).totalSize = WhoopCache.memSum (WhoopCache.evictLRU c) := by
  unfold WhoopCache.evictLRU
  cases hf : findOldest c.accessOrder with
  | none => exact hinv
  | some p =>
    have := memInv_delete c p.1 hinv
    simpa [WhoopCache.memSum] using this

/-- The eviction loop preserves the memory-accounting invariant. -/
theorem memInv_evictLoop {V : Type} (fuel : Nat) :
    ∀ (c : WhoopCache V), c.totalSize = WhoopCache.memSum c →
    (WhoopCache.evictLoop c fuel).totalSize =
      WhoopCache.memSum (WhoopCache.evictLoop c fuel) := by
  induction fuel with
  | zero => intro c hinv; exact hinv
  | succ f ih =>
    intro c hinv
    unfold WhoopCache.evictLoop
    by_cases hcond : c.config.maxSize ≤ c.cache.length ∧ 0 < c.cache.length
    · simpa [hcond] using ih _ (memInv_evictLRU c hinv)
    · simpa [hcond] using hinv

/-- The eviction loop never introduces a binding for an absent key. -/
theorem evictLoop_preserves_absent {V : Type} (fuel : Nat) :
    ∀ (c : WhoopCache V) (key : String), alookup c.cache key = none →
    alookup (WhoopCache.evictLoop c fuel).cache key = none := by
  induction fuel with
  | zero => intro c key h; exact h
  | succ f ih =>
    intro c key h
    unfold WhoopCache.evictLoop
    by_cases hcond : c.config.maxSize ≤ c.cache.length ∧ 0 < c.cache.length
    · simp only [hcond, if_pos]
      refine ih _ key ?_
      unfold WhoopCache.evictLRU
      cases hf : findOldest c.accessOrder with
      | none => exact h
      | some p =>
        simp only [WhoopCache.delete]
        exact alookup_aerase_of_none h
    · simpa [hcond] using h

/-- `applyOp` preserves the memory-accounting invariant provided any
`setOp` targets an absent key. -/
theorem memInv_applyOp {V : Type} (est : V → Except Unit Nat)
    (c : WhoopCache V) (op : CacheOp V)
    (hinv : c.totalSize = WhoopCache.memSum c)
    (hfresh : ∀ now key v customTtl, op = .setOp now key v customTtl →
      alookup c.cache key = none) :
    (WhoopCache.applyOp est c op).totalSize =
      WhoopCache.memSum (WhoopCache.applyOp est c op) := by
  cases op with
  | getOp now key => exact memInv_get c now key hinv
  | delOp key => exact memInv_delete c key hinv
  | clearOp => simp [WhoopCache.applyOp, WhoopCache.clear, WhoopCache.memSum]
  | setOp now key v customTtl =>
    have hkey := hfresh now key v customTtl rfl
    cases hs : est v with
    | error e => simpa [WhoopCache.applyOp, WhoopCache.set, hs] using hinv
    | ok s =>
      have hloop := memInv_evictLoop (V := V) (c.accessOrder.length + 1) c hinv
      have habs := evictLoop_preserves_absent (V := V) (c.accessOrder.length + 1)
        c key hkey
      simp only [WhoopCache.applyOp, WhoopCache.set, hs]
      simp [WhoopCache.memSum, aset_fresh_append _ habs, hloop]

/-- The memory-accounting invariant holds after any operation sequence
whose `set`s never overwrite an existing binding. -/
theorem memInv_runOps {V : Type} (est : V → Except Unit Nat) :
    ∀ (ops : List (CacheOp V)) (c : WhoopCache V),
      c.totalSize = WhoopCache.memSum c →
      WhoopCache.freshSets est c ops = true →
      (WhoopCache.runOps est c ops).totalSize =
        WhoopCache.memSum (WhoopCache.runOps est c ops) := by
  intro ops
  induction ops with
  | nil => intro c hinv _; exact hinv
  | cons op rest ih =>
    intro c hinv hfresh
    cases op with
    | setOp now key v customTtl =>
      simp only [WhoopCache.freshSets, Bool.and_eq_true] at hfresh
      refine ih (WhoopCache.applyOp est c (.setOp now key v customTtl)) ?_ hfresh.2
      refine memInv_applyOp est c _ hinv ?_
      intro now2 key2 v2 t2 hop
      cases hop
      exact Option.isNone_iff_eq_none.mp hfresh.1
    | getOp now key =>
      simp only [WhoopCache.freshSets, Bool.true_and] at hfresh
      refine ih (WhoopCache.applyOp est c (.getOp now key)) ?_ hfresh
      exact memInv_applyOp est c _ hinv (by intro _ _ _ _ h; cases h)
    | delOp key =>
      simp only [WhoopCache.freshSets, Bool.true_and] at hfresh
      refine ih (WhoopCache.applyOp est c (.delOp key)) ?_ hfresh
      exact memInv_applyOp est c _ hinv (by intro _ _ _ _ h; cases h)
    | clearOp =>
      simp only [WhoopCache.freshSets, Bool.true_and] at hfresh
      refine ih (WhoopCache.applyOp est c .clearOp) ?_ hfresh
      exact memInv_applyOp est c _ hinv (by intro _ _ _ _ h; cases h)

/-- C10 counterexample: overwriting a live key double-counts.  After
`set("k", v1)` (size 5) and `set("k", v2)` (size 5) the cache holds one
entry whose recorded sizes sum to 5, but `getStats().totalMemory`
reports 10 — `set` adds the new entry's size without subtracting the
overwritten entry's. -/
theorem claim_C10_counterexample :
    (WhoopCache.getStats (WhoopCache.runOps (fun _ => .ok 5)
      (WhoopCache.empty {} : WhoopCache Nat)
      [.setOp 0 "k" 1 none, .setOp 1 "k" 2 none])).totalMemory = 10 ∧
    WhoopCache.memSum (WhoopCache.runOps (fun _ => .ok 5)
      (WhoopCache.empty {} : WhoopCache Nat)
      [.setOp 0 "k" 1 none, .setOp 1 "k" 2 none]) = 5 := by
  refine ⟨?_, ?_⟩ <;> decide

/-- C10 (amended): after every sequence of set/get/delete/clear
operations in which no `set` overwrites a key currently bound in the
map, `getStats().totalMemory` equals the sum of the recorded sizes of
the entries present.  (An overwriting `set` breaks the equality: it adds
the new size without subtracting the replaced entry's — see the
counterexample.) -/
theorem claim_C10 (V : Type) (cfg : CacheConfig) (est : V → Except Unit Nat)
    (ops : List (CacheOp V))
    (hfresh : WhoopCache.freshSets est (WhoopCache.empty cfg) ops = true) :
    (WhoopCache.getStats (WhoopCache.runOps est (WhoopCache.empty cfg) ops)).totalMemory =
      WhoopCache.memSum (WhoopCache.runOps est (WhoopCache.empty cfg) ops) := by
  have h0 : (WhoopCache.empty cfg : WhoopCache V).totalSize =
      WhoopCache.memSum (WhoopCache.empty cfg : WhoopCache V) := by
    simp [WhoopCache.empty, WhoopCache.memSum]
  exact memInv_runOps est ops (WhoopCache.empty cfg) h0 hfresh

/-- Witness for C10 over a mixed operation sequence without
overwrites. -/
theorem claim_C10_witness :
    (WhoopCache.getStats (WhoopCache.runOps (fun v => .ok v)
      (WhoopCache.empty { ttl := 1000, maxSize := 2 } : WhoopCache Nat)
      [.setOp 0 "a" 3 none, .getOp 5 "a", .setOp 6 "b" 4 none,
       .delOp "a", .setOp 7 "c" 2 none, .clearOp,
       .setOp 9 "d" 6 none])).totalMemory =
      WhoopCache.memSum (WhoopCache.runOps (fun v => .ok v)
        (WhoopCache.empty { ttl := 1000, maxSize := 2 } : WhoopCache Nat)
        [.setOp 0 "a" 3 none, .getOp 5 "a", .setOp 6 "b" 4 none,
         .delOp "a", .setOp 7 "c" 2 none, .clearOp,
         .setOp 9 "d" 6 none]) :=
  claim_C10 Nat { ttl := 1000, maxSize := 2 } (fun v => .ok v)
    [.setOp 0 "a" 3 none, .getOp 5 "a", .setOp 6 "b" 4 none,
     .delOp "a", .setOp 7 "c" 2 none, .clearOp, .setOp 9 "d" 6 none]
    (by decide)

/-! ## Claim C8 — LRU eviction -/

